import Mathlib

/-!
Verification of the `videoLoop` subsystem of bmtool (`src/cmd/videoLoop.go`).

The Go source is shallowly embedded here:

* `getRequiredLoopCount` models the target-duration loop planner
  (`getRequiredLoopCount` in `videoLoop.go`).  Go computes
  `int(math.Ceil(float64(requiredLength-tDuration)/float64(length-tDuration)))`;
  for the `int`-valued inputs this tool feeds it (values well below `2^26`),
  `float64` division followed by `math.Ceil` agrees with the exact rational
  ceiling, so the embedding uses `Int.ceil` over `ℚ`.
* `crossFadeLoop` / `filterComplexWithCrossFade` model the filter-graph text
  builder `filterComplexWithCrossFade`, including the `uint16` wrap-around of
  `length-tDur`, `count-1` and `count*2` that the Go code performs.
* `crossFadeGraphStmts` is the statement-level view of the very same graph:
  one entry per `a = a + fmt.Sprintf(...)` line of the source, recording which
  bracketed labels the line consumes and which it produces.
* `videoLoopRunFile` models the per-input-file dispatch of the cobra `Run`
  function, and `createVideoLoopWithoutTransitionFs` models the temp-file
  lifecycle of `createVideoLoopWithoutTransition`.
-/

/-- Go `uint16` truncation (Go arithmetic on `uint16` operands is mod `2^16`). -/
def u16 (n : Nat) : Nat := n % 65536

/-- Go `uint16` subtraction `a - b` (wraps modulo `2^16`); both arguments are
assumed to be `uint16` values, i.e. `< 65536`. -/
def u16sub (a b : Nat) : Nat := (a + 65536 - b) % 65536

/-- Concatenation of a list of strings (`strings.Join` with empty separator);
defined by structural recursion so that proofs can proceed by induction. -/
def strJoin : List String → String
  | [] => ""
  | s :: rest => s ++ strJoin rest

/-- Go `strings.Repeat s n`: `n` copies of `s` concatenated. -/
def strRepeat (s : String) : Nat → String
  | 0 => ""
  | n + 1 => s ++ strRepeat s n

theorem strJoin_append (l₁ l₂ : List String) :
    strJoin (l₁ ++ l₂) = strJoin l₁ ++ strJoin l₂ := by
  induction l₁ with
  | nil => simp [strJoin]
  | cons a t ih => simp [strJoin, ih, String.append_assoc]

theorem strRepeat_eq_join (s : String) (n : Nat) :
    strRepeat s n = strJoin (List.replicate n s) := by
  induction n with
  | zero => rfl
  | succ n ih => simp [strRepeat, List.replicate, strJoin, ih]

/-- The LoopPlanner's target-duration mode, `getRequiredLoopCount` in
`videoLoop.go`:

```go
func getRequiredLoopCount(length int, requiredLength int, tDuration int) (int, error) {
    if requiredLength == 0 { ...; return 0, errors.New("required duration is 0") }
    numerator := float64(requiredLength - tDuration)
    denominator := float64(length - tDuration)
    requiredLoop := int(math.Ceil(numerator / denominator))
    return requiredLoop, nil
}
```

The `float64` ceiling is embedded as the exact `Int.ceil` over `ℚ`, which
coincides with the Go computation on all inputs this CLI can produce
(`uint16`-ranged flags and probed whole-second durations).  Note the only
error path is `requiredLength == 0`; there is no guard on the sign of the
denominator. -/
def getRequiredLoopCount (length requiredLength tDuration : ℤ) : Except String ℤ :=
  if requiredLength = 0 then .error "required duration is 0"
  else .ok ⌈((requiredLength : ℚ) - tDuration) / ((length : ℚ) - tDuration)⌉

example : getRequiredLoopCount 15 35 5 = .ok 3 := by
  have : ⌈((35 : ℚ) - 5) / ((15 : ℚ) - 5)⌉ = 3 := by
    norm_num
  simpa [getRequiredLoopCount]

/-- Claim C1: for `clipDurationSeconds > transitionSeconds ≥ 0` and
`targetSeconds > transitionSeconds`, `getRequiredLoopCount` succeeds and
returns `⌈(targetSeconds - transitionSeconds) / (clipDurationSeconds -
transitionSeconds)⌉`, which is the smallest integer `n` with
`n*(clipDurationSeconds - transitionSeconds) + transitionSeconds ≥
targetSeconds`. -/
theorem loopCount_target_is_minimal_ceil
    (L T t : ℤ) (ht : 0 ≤ t) (hL : t < L) (hT : t < T) :
    ∃ n, getRequiredLoopCount L T t = .ok n ∧
      n = ⌈((T : ℚ) - (t : ℚ)) / ((L : ℚ) - (t : ℚ))⌉ ∧
      T ≤ n * (L - t) + t ∧
      ∀ m : ℤ, T ≤ m * (L - t) + t → n ≤ m := by
  have hT0 : T ≠ 0 := by omega
  have hd : (0 : ℚ) < (L : ℚ) - (t : ℚ) := by
    have : (t : ℚ) < (L : ℚ) := by exact_mod_cast hL
    linarith
  refine ⟨⌈((T : ℚ) - (t : ℚ)) / ((L : ℚ) - (t : ℚ))⌉,
    by simp [getRequiredLoopCount, hT0], rfl, ?_, ?_⟩
  · have h1 : ((T : ℚ) - (t : ℚ)) / ((L : ℚ) - (t : ℚ)) ≤
        (⌈((T : ℚ) - (t : ℚ)) / ((L : ℚ) - (t : ℚ))⌉ : ℚ) := Int.le_ceil _
    have h2 : (T : ℚ) - (t : ℚ) ≤
        (⌈((T : ℚ) - (t : ℚ)) / ((L : ℚ) - (t : ℚ))⌉ : ℚ) * ((L : ℚ) - (t : ℚ)) :=
      (div_le_iff₀ hd).mp h1
    have h3 : T - t ≤ ⌈((T : ℚ) - (t : ℚ)) / ((L : ℚ) - (t : ℚ))⌉ * (L - t) := by
      exact_mod_cast h2
    linarith
  · intro m hm
    have hm' : T - t ≤ m * (L - t) := by linarith
    have hmq : (T : ℚ) - (t : ℚ) ≤ (m : ℚ) * ((L : ℚ) - (t : ℚ)) := by
      exact_mod_cast hm'
    exact Int.ceil_le.mpr ((div_le_iff₀ hd).mpr hmq)

/-- Witness for **C1** at the spec's concrete scenario 1:
`clipDuration = 15`, `transition = 5`, `target = 35`. -/
theorem loopCount_target_is_minimal_ceil_witness :
    ∃ n, getRequiredLoopCount 15 35 5 = .ok n ∧
      n = ⌈((35 : ℚ) - (5 : ℚ)) / ((15 : ℚ) - (5 : ℚ))⌉ ∧
      (35 : ℤ) ≤ n * (15 - 5) + 5 ∧
      ∀ m : ℤ, (35 : ℤ) ≤ m * (15 - 5) + 5 → n ≤ m := by
  have h := loopCount_target_is_minimal_ceil 15 35 5 (by norm_num) (by norm_num)
    (by norm_num)
  simpa using h

/-- Claim C2: the claim says `getRequiredLoopCount` fails with a degenerate-clip
error whenever `clipDurationSeconds ≤ transitionSeconds`.  The code has no such
guard: at `length = 4`, `requiredLength = 35`, `tDuration = 5` (clip shorter
than the transition) it returns the meaningless count `-30` with no error. -/
theorem loopCount_no_degenerate_guard :
    getRequiredLoopCount 4 35 5 = .ok (-30) := by
  have e : ((35 : ℚ) - (5 : ℚ)) / ((4 : ℚ) - (5 : ℚ)) = ((-30 : ℤ) : ℚ) := by
    norm_num
  have h : ⌈((35 : ℚ) - (5 : ℚ)) / ((4 : ℚ) - (5 : ℚ))⌉ = (-30 : ℤ) := by
    rw [e, Int.ceil_intCast]
  simpa [getRequiredLoopCount]

/-- Claim C10: whenever `0 < requiredLength ≤ tDuration` and
`length > tDuration`, `getRequiredLoopCount` happily returns a count `< 2`
(indeed `≤ 0`) together with no error: the `count ≥ 2` minimum is not enforced
by the target-duration planner. -/
theorem loopCount_can_be_less_than_two
    (L T t : ℤ) (hT : 0 < T) (hL : t < L) (hTt : T ≤ t) :
    ∃ n, getRequiredLoopCount L T t = .ok n ∧ n < 2 := by
  have hT0 : T ≠ 0 := by omega
  have hd : (0 : ℚ) < (L : ℚ) - (t : ℚ) := by
    have : (t : ℚ) < (L : ℚ) := by exact_mod_cast hL
    linarith
  refine ⟨⌈((T : ℚ) - (t : ℚ)) / ((L : ℚ) - (t : ℚ))⌉,
    by simp [getRequiredLoopCount, hT0], ?_⟩
  have hnum : (T : ℚ) - (t : ℚ) ≤ 0 := by
    have : (T : ℚ) ≤ (t : ℚ) := by exact_mod_cast hTt
    linarith
  have hq : ((T : ℚ) - (t : ℚ)) / ((L : ℚ) - (t : ℚ)) ≤ 0 := by
    rw [div_le_iff₀ hd]
    simpa using hnum
  have hceil : ⌈((T : ℚ) - (t : ℚ)) / ((L : ℚ) - (t : ℚ))⌉ ≤ 0 :=
    Int.ceil_le.mpr (by simpa using hq)
  omega

/-- Witness for **C10**: `length = 15`, `requiredLength = 3`,
`tDuration = 5` yields a successful result below 2. -/
theorem loopCount_can_be_less_than_two_witness :
    ∃ n, getRequiredLoopCount 15 3 5 = .ok n ∧ n < 2 := by
  have h := loopCount_can_be_less_than_two 15 3 5 (by norm_num) (by norm_num)
    (by norm_num)
  simpa using h

/-- Labels `cf1, cf2, ...` produced by the `[crossfade] split` statement:
`k` labels starting at index `i` (the Go loop runs `i = 1; i < count`). -/
def cfLabelsFrom : Nat → Nat → List String
  | _, 0 => []
  | i, k + 1 => ("cf" ++ toString i) :: cfLabelsFrom (i + 1) k

/-- Labels `cl1, cl2, ...` produced by the `[clip2] split` statement. -/
def clLabelsFrom : Nat → Nat → List String
  | _, 0 => []
  | i, k + 1 => ("cl" ++ toString i) :: clLabelsFrom (i + 1) k

/-- The interleaved interior sequence `cf1, cl1, cf2, cl2, ...`: `k` pairs
starting at index `i`, both members of each pair sharing the same index. -/
def pairsFrom : Nat → Nat → List String
  | _, 0 => []
  | i, k + 1 => ("cf" ++ toString i) :: ("cl" ++ toString i) :: pairsFrom (i + 1) k

/-- Renders a list of labels the way the filter-graph text references them:
each label wrapped in square brackets, concatenated. -/
def renderLabels (ls : List String) : String :=
  strJoin (ls.map fun l => "[" ++ l ++ "]")

/-- The accumulation loop at the top of `filterComplexWithCrossFade`:

```go
cf := ""; cl := ""; cfcl := ""
var i uint16 = 1
for ; i < count; i++ {
    cf = cf + fmt.Sprintf("[cf%d]", i)
    cl = cl + fmt.Sprintf("[cl%d]", i)
    cfcl = cfcl + fmt.Sprintf("[cf%d][cl%d]", i, i)
}
```
-/
def crossFadeLoop (count i : Nat) (cf cl cfcl : String) :
    String × String × String :=
  if i < count then
    crossFadeLoop count (i + 1)
      (cf ++ ("[cf" ++ toString i ++ "]"))
      (cl ++ ("[cl" ++ toString i ++ "]"))
      (cfcl ++ ("[cf" ++ toString i ++ "]" ++ ("[cl" ++ toString i ++ "]")))
  else (cf, cl, cfcl)
termination_by count - i

/-- The cross-fade filter-graph text builder `filterComplexWithCrossFade` of
`videoLoop.go`, line for line.  Each `++ (...)` group is one
`a = a + fmt.Sprintf(...)` statement of the source; `count`, `tDur` and
`length` are `uint16` in Go, so `length-tDur`, `count-1` and `count*2` are
computed modulo `2^16` (`u16sub` / `u16`). -/
def filterComplexWithCrossFade (count tDur length : Nat) : String :=
  let parts := crossFadeLoop count 1 "" "" ""
  "" ++ ("[0:v]trim=start=0:end=" ++ toString (u16sub length tDur) ++
      ",setpts=PTS-STARTPTS[clip1]; ")
    ++ ("[0:v]trim=start=" ++ toString tDur ++ ":end=" ++
      toString (u16sub length tDur) ++ ",setpts=PTS-STARTPTS[clip2]; ")
    ++ ("[0:v]trim=start=" ++ toString (u16sub length tDur) ++ ":end=" ++
      toString length ++ ",setpts=PTS-STARTPTS[clip3]; ")
    ++ ("[0:v]trim=start=" ++ toString (u16sub length tDur) ++ ":end=" ++
      toString length ++ ",setpts=PTS-STARTPTS[fadeoutsrc]; ")
    ++ ("[0:v]trim=start=0:end=" ++ toString tDur ++
      ",setpts=PTS-STARTPTS[fadeinsrc]; ")
    ++ ("[fadeinsrc]format=pix_fmts=yuva420p, fade=t=in:st=0:d=" ++
      toString tDur ++ ":alpha=1[fadein]; ")
    ++ ("[fadeoutsrc]format=pix_fmts=yuva420p, fade=t=out:st=0:d=" ++
      toString tDur ++ ":alpha=1[fadeout]; ")
    ++ "[fadein]fifo[fadeinfifo]; "
    ++ "[fadeout]fifo[fadeoutfifo]; "
    ++ "[fadeoutfifo][fadeinfifo]overlay[crossfade]; "
    ++ ("[crossfade] split=" ++ toString (u16sub count 1) ++ " " ++ parts.1
      ++ " ; ")
    ++ ("[clip2] split=" ++ toString (u16sub count 1) ++ " " ++ parts.2.1
      ++ " ; ")
    ++ "[clip1]" ++ parts.2.2 ++ "[clip3]"
    ++ ("concat=n=" ++ toString (u16 (count * 2)) ++ ":v=1[output]")

/-- What the accumulation loop computes: bracket-rendered `cf`, `cl` and
interleaved `cf/cl` label sequences for indices `i, i+1, ..., count-1`. -/
theorem crossFadeLoop_eq (count : Nat) :
    ∀ k i cf cl cfcl, count - i = k →
      crossFadeLoop count i cf cl cfcl =
        (cf ++ renderLabels (cfLabelsFrom i k),
         cl ++ renderLabels (clLabelsFrom i k),
         cfcl ++ renderLabels (pairsFrom i k)) := by
  intro k
  induction k with
  | zero =>
    intro i cf cl cfcl h
    have hni : ¬ i < count := by omega
    rw [crossFadeLoop]
    simp [hni, cfLabelsFrom, clLabelsFrom, pairsFrom, renderLabels, strJoin,
      String.append_empty]
  | succ k ih =>
    intro i cf cl cfcl h
    have hi : i < count := by omega
    rw [crossFadeLoop]
    simp only [if_pos hi]
    rw [ih (i + 1) _ _ _ (by omega)]
    simp only [cfLabelsFrom, clLabelsFrom, pairsFrom, renderLabels,
      List.map_cons, strJoin, String.append_assoc]
    rfl

/-- Everything `filterComplexWithCrossFade` emits before the `[clip1]...`
concatenation sequence: the five trims, the two fades, the two fifos, the
overlay, and the two `split` statements. -/
def fcStem (count tDur length : Nat) : String :=
  "" ++ ("[0:v]trim=start=0:end=" ++ toString (u16sub length tDur) ++
      ",setpts=PTS-STARTPTS[clip1]; ")
    ++ ("[0:v]trim=start=" ++ toString tDur ++ ":end=" ++
      toString (u16sub length tDur) ++ ",setpts=PTS-STARTPTS[clip2]; ")
    ++ ("[0:v]trim=start=" ++ toString (u16sub length tDur) ++ ":end=" ++
      toString length ++ ",setpts=PTS-STARTPTS[clip3]; ")
    ++ ("[0:v]trim=start=" ++ toString (u16sub length tDur) ++ ":end=" ++
      toString length ++ ",setpts=PTS-STARTPTS[fadeoutsrc]; ")
    ++ ("[0:v]trim=start=0:end=" ++ toString tDur ++
      ",setpts=PTS-STARTPTS[fadeinsrc]; ")
    ++ ("[fadeinsrc]format=pix_fmts=yuva420p, fade=t=in:st=0:d=" ++
      toString tDur ++ ":alpha=1[fadein]; ")
    ++ ("[fadeoutsrc]format=pix_fmts=yuva420p, fade=t=out:st=0:d=" ++
      toString tDur ++ ":alpha=1[fadeout]; ")
    ++ "[fadein]fifo[fadeinfifo]; "
    ++ "[fadeout]fifo[fadeoutfifo]; "
    ++ "[fadeoutfifo][fadeinfifo]overlay[crossfade]; "
    ++ ("[crossfade] split=" ++ toString (u16sub count 1) ++ " " ++
      renderLabels (cfLabelsFrom 1 (count - 1)) ++ " ; ")
    ++ ("[clip2] split=" ++ toString (u16sub count 1) ++ " " ++
      renderLabels (clLabelsFrom 1 (count - 1)) ++ " ; ")

/-- Structural decomposition of the generated graph text: the terminal part of
the string is exactly `[clip1]`, the bracket-rendered interleaved `cf/cl`
pairs for indices `1 .. count-1`, `[clip3]`, and the concat statement that
declares `n = count*2` (as a `uint16`) and `v=1`. -/
theorem filterComplexWithCrossFade_decomp (count tDur length : Nat) :
    filterComplexWithCrossFade count tDur length =
      fcStem count tDur length
        ++ "[clip1]" ++ renderLabels (pairsFrom 1 (count - 1)) ++ "[clip3]"
        ++ ("concat=n=" ++ toString (u16 (count * 2)) ++ ":v=1[output]") := by
  have h := crossFadeLoop_eq count (count - 1) 1 "" "" "" rfl
  simp only [filterComplexWithCrossFade, fcStem, h, String.empty_append]

/-- One statement of a filter graph (spec §3 `FilterGraph`): the labels it
consumes and the labels it produces. -/
structure Stmt where
  inputs : List String
  outputs : List String

/-- The spec's DAG well-formedness invariant, relative to the labels already
available before the first statement: every label a statement consumes must be
available, each statement then makes its outputs available to later ones. -/
def wfFrom : List String → List Stmt → Prop
  | _, [] => True
  | env, s :: rest => (∀ l ∈ s.inputs, l ∈ env) ∧ wfFrom (env ++ s.outputs) rest

/-- The `count - 1` crossfade split copies `cf1 .. cf(count-1)`. -/
def cfLabels (count : Nat) : List String := cfLabelsFrom 1 (count - 1)

/-- The `count - 1` loop-body split copies `cl1 .. cl(count-1)`. -/
def clLabels (count : Nat) : List String := clLabelsFrom 1 (count - 1)

/-- The label sequence fed into the terminal concat statement: `clip1`, then
the interleaved pairs `cf1, cl1, ..., cf(count-1), cl(count-1)`, then
`clip3`. -/
def concatSegmentLabels (count : Nat) : List String :=
  "clip1" :: (pairsFrom 1 (count - 1) ++ ["clip3"])

/-- Statement-level view of `filterComplexWithCrossFade`: one entry per
`a = a + fmt.Sprintf(...)` line of the Go source (the last two lines of the
source — concat inputs and the concat filter — form the single terminal
statement), recording the labels each line consumes and produces.  `0:v` is
the engine's input video stream (bound by `-i file` in
`createVideoLoopWithTransition`), available before the first statement. -/
def crossFadeGraphStmts (count : Nat) : List Stmt :=
  [⟨["0:v"], ["clip1"]⟩,
   ⟨["0:v"], ["clip2"]⟩,
   ⟨["0:v"], ["clip3"]⟩,
   ⟨["0:v"], ["fadeoutsrc"]⟩,
   ⟨["0:v"], ["fadeinsrc"]⟩,
   ⟨["fadeinsrc"], ["fadein"]⟩,
   ⟨["fadeoutsrc"], ["fadeout"]⟩,
   ⟨["fadein"], ["fadeinfifo"]⟩,
   ⟨["fadeout"], ["fadeoutfifo"]⟩,
   ⟨["fadeoutfifo", "fadeinfifo"], ["crossfade"]⟩,
   ⟨["crossfade"], cfLabels count⟩,
   ⟨["clip2"], clLabels count⟩,
   ⟨concatSegmentLabels count, ["output"]⟩]

/-- The graph together with the `n=` value the terminal concat statement
declares; `fmt.Sprintf("concat=n=%d:v=1[output]", count*2)` prints the
`uint16` product, i.e. `count*2 mod 2^16`. -/
structure CrossFadeGraph where
  stmts : List Stmt
  concatN : Nat

/-- The spec §4.2 builder `buildCrossFadeGraph` as realised by
`filterComplexWithCrossFade`, at the statement level. -/
def buildCrossFadeGraph (count : Nat) : CrossFadeGraph :=
  ⟨crossFadeGraphStmts count, u16 (count * 2)⟩

theorem pairsFrom_length : ∀ k i, (pairsFrom i k).length = 2 * k := by
  intro k
  induction k with
  | zero => intro i; rfl
  | succ k ih =>
    intro i
    simp [pairsFrom, ih]
    omega

theorem pairsFrom_subset : ∀ k i l, l ∈ pairsFrom i k →
    l ∈ cfLabelsFrom i k ∨ l ∈ clLabelsFrom i k := by
  intro k
  induction k with
  | zero =>
    intro i l h
    simp [pairsFrom] at h
  | succ k ih =>
    intro i l h
    simp only [pairsFrom, List.mem_cons] at h
    rcases h with rfl | rfl | h
    · exact Or.inl (by simp [cfLabelsFrom])
    · exact Or.inr (by simp [clLabelsFrom])
    · rcases ih (i + 1) l h with h' | h'
      · exact Or.inl (by simp [cfLabelsFrom, h'])
      · exact Or.inr (by simp [clLabelsFrom, h'])

theorem crossFadeGraphStmts_wf (count : Nat) :
    wfFrom ["0:v"] (crossFadeGraphStmts count) := by
  simp only [crossFadeGraphStmts, wfFrom, and_true]
  refine ⟨?_, ?_, ?_, ?_, ?_, ?_, ?_, ?_, ?_, ?_, ?_, ?_, ?_⟩
  · simp
  · simp
  · simp
  · simp
  · simp
  · simp
  · simp
  · simp
  · simp
  · simp
  · simp
  · simp
  · intro l hl
    simp only [concatSegmentLabels, List.mem_cons, List.mem_append,
      List.mem_singleton] at hl
    rcases hl with rfl | hl | rfl | h
    · simp
    · rcases pairsFrom_subset _ _ _ hl with h | h
      · simp [cfLabels, List.mem_append, h]
      · simp [clLabels, List.mem_append, h]
    · simp
    · exact absurd h (List.not_mem_nil _)

theorem concatSegmentLabels_length (count : Nat) (h1 : 1 ≤ count) :
    (concatSegmentLabels count).length = count * 2 := by
  simp [concatSegmentLabels, pairsFrom_length]
  omega

/-- Claim C4 (amended): for every `2 ≤ count ≤ 32767` (so that the `uint16`
product `count*2` does not wrap) and any transition/clip durations, the built
graph is well-formed: every label a statement references was produced by an
earlier statement (starting from the engine-provided input stream `0:v`), the
terminal statement consumes exactly `count*2` segment labels and produces the
single output label `output`, and the generated text declares `n = count*2`
and `v=1` in its terminal concat statement. -/
theorem crossFadeGraph_wellFormed
    (count tDur length : Nat) (h2 : 2 ≤ count) (hc : count ≤ 32767) :
    wfFrom ["0:v"] (buildCrossFadeGraph count).stmts
    ∧ (buildCrossFadeGraph count).stmts.getLast? =
        some ⟨concatSegmentLabels count, ["output"]⟩
    ∧ (concatSegmentLabels count).length = count * 2
    ∧ (buildCrossFadeGraph count).concatN = count * 2
    ∧ ∃ p, filterComplexWithCrossFade count tDur length =
        p ++ ("concat=n=" ++ toString (count * 2) ++ ":v=1[output]") := by
  have hu : u16 (count * 2) = count * 2 := Nat.mod_eq_of_lt (by omega)
  refine ⟨crossFadeGraphStmts_wf count, rfl,
    concatSegmentLabels_length count (by omega), ?_, ?_⟩
  · simpa [buildCrossFadeGraph] using hu
  · refine ⟨fcStem count tDur length ++ "[clip1]" ++
      renderLabels (pairsFrom 1 (count - 1)) ++ "[clip3]", ?_⟩
    rw [filterComplexWithCrossFade_decomp, hu]

/-- Witness for **C4** at `count = 3`, `tDur = 5`, `length = 15`. -/
theorem crossFadeGraph_wellFormed_witness :
    wfFrom ["0:v"] (buildCrossFadeGraph 3).stmts
    ∧ (buildCrossFadeGraph 3).stmts.getLast? =
        some ⟨concatSegmentLabels 3, ["output"]⟩
    ∧ (concatSegmentLabels 3).length = 3 * 2
    ∧ (buildCrossFadeGraph 3).concatN = 3 * 2
    ∧ ∃ p, filterComplexWithCrossFade 3 5 15 =
        p ++ ("concat=n=" ++ toString (3 * 2) ++ ":v=1[output]") :=
  crossFadeGraph_wellFormed 3 5 15 (by decide) (by decide)

/-- Counterexample for claim C4: at `count = 32768` the terminal concat statement is
still fed `count*2 = 65536` segment labels, but the `uint16` product printed
into the graph text wraps to `0`, so the declared `n` is **not** `count*2` as
the claim states for every `count ≥ 2`. -/
theorem crossFadeGraph_concatN_overflow :
    (concatSegmentLabels 32768).length = 32768 * 2
    ∧ (buildCrossFadeGraph 32768).concatN ≠ 32768 * 2 := by
  refine ⟨concatSegmentLabels_length 32768 (by decide), ?_⟩
  simp [buildCrossFadeGraph, u16]

/-- Claim C5: for every `count ≥ 2` (any `uint16` value) the concat input
sequence of the generated graph text is exactly `[clip1]`, then the
interleaved pairs `[cf1][cl1] ... [cf(count-1)][cl(count-1)]` (both members of
each pair sharing the same index), then `[clip3]`, immediately followed by the
terminal concat statement. -/
theorem concatSequence_interleaved
    (count tDur length : Nat) (h2 : 2 ≤ count) (hc : count ≤ 65535) :
    ∃ p, filterComplexWithCrossFade count tDur length =
      p ++ renderLabels (concatSegmentLabels count)
        ++ ("concat=n=" ++ toString (u16 (count * 2)) ++ ":v=1[output]") := by
  refine ⟨fcStem count tDur length, ?_⟩
  rw [filterComplexWithCrossFade_decomp]
  have hr : renderLabels (concatSegmentLabels count) =
      "[clip1]" ++ renderLabels (pairsFrom 1 (count - 1)) ++ "[clip3]" := by
    simp only [concatSegmentLabels, renderLabels, List.map_cons,
      List.map_append, strJoin, strJoin_append, String.append_empty,
      String.append_assoc]
    rfl
  rw [hr]
  simp only [String.append_assoc]

/-- Witness for **C5** at `count = 3`, `tDur = 5`, `length = 15`. -/
theorem concatSequence_interleaved_witness :
    ∃ p, filterComplexWithCrossFade 3 5 15 =
      p ++ renderLabels (concatSegmentLabels 3)
        ++ ("concat=n=" ++ toString (u16 (3 * 2)) ++ ":v=1[output]") :=
  concatSequence_interleaved 3 5 15 (by decide) (by decide)

/-- Splits a character list at every occurrence of the separator `c`
(an executable stand-in for `strings.Split`). -/
def splitChar (c : Char) : List Char → List (List Char)
  | [] => [[]]
  | x :: xs =>
    match splitChar c xs with
    | [] => if x = c then [[], []] else [[x]]
    | h :: t => if x = c then [] :: h :: t else (x :: h) :: t

/-- Joins character-list segments back together with `.` separators. -/
def joinDot : List (List Char) → List Char
  | [] => []
  | [p] => p
  | p :: ps => p ++ '.' :: joinDot ps

/-- Modelled from the spec: `getFileNameWithoutExtension` is defined in a
repository file that is not under `src/`; per the spec's output-naming rule
(`<input-stem>_loop-<count>.mp4`) it returns the input path's base name with
its final extension removed. -/
def getFileNameWithoutExtension (f : String) : String :=
  let base := (splitChar '/' f.data).getLastD f.data
  match (splitChar '.' base).dropLast with
  | [] => ⟨base⟩
  | ps => ⟨joinDot ps⟩

/-- Modelled from the spec: Go's `filepath.Join(oPath, fn)` as used by
`getOutputFileName` — the file name placed in the resolved output directory;
an empty directory joins to the bare file name. -/
def joinPath (dir fn : String) : String :=
  if dir = "" then fn else dir ++ "/" ++ fn

/-- The function `getOutputFileName` from `videoLoop.go`:
`filepath.Join(oPath, getFileNameWithoutExtension(f) + "_" + suffix + "." + "mp4")`. -/
def getOutputFileName (oPath f suffix : String) : String :=
  joinPath oPath (getFileNameWithoutExtension f ++ "_" ++ suffix ++ "." ++ "mp4")

/-- One line of the concat-demuxer list file,
`fmt.Sprintf("%s '%s'\n", "file", p)` with `p` the absolute source path. -/
def concatListLine (absPath : String) : String :=
  "file" ++ " '" ++ absPath ++ "'\n"

/-- Contents of the temp list file written by
`createVideoLoopWithoutTransition`: `strings.Repeat(line, int(count))`. -/
def concatListContent (count : Nat) (absPath : String) : String :=
  strRepeat (concatListLine absPath) count

/-- An invocation of the external engine (ffmpeg): the concat-demuxer path is
identified by the list content it reads and the output path, the filter-graph
path by the graph text and the output path. -/
inductive EngineCall
  | concatList (listContent : String) (output : String)
  | filterGraph (graph : String) (output : String)
deriving DecidableEq

/-- Observable outcome of one code path: the engine invocations made, in
order, and the error messages printed to stderr. -/
structure RunOutcome where
  engineCalls : List EngineCall
  stderrMsgs : List String
deriving DecidableEq

/-- Model of `createVideoLoopWithTransition` of `videoLoop.go` for a probed clip
length (`probe = none` models a `getLength` failure, which returns early).
Note what the source actually does:

```go
l, err := getLength(file)
if err != nil { return }
length := uint16(l)
if length < tDur {
    fmt.Fprint(os.Stderr, "Transition duration must be less than video length")
}
fc := filterComplexWithCrossFade(count, tDur, length)
... exec.Command(app, ..., "-filter_complex", fc, "-map", "[output]", outputFileName).Run()
```

The `length < tDur` guard only prints — there is no `return` — and nothing at
all checks `length == tDur`, so the graph is always built and the engine is
always invoked once the probe succeeds. -/
def createVideoLoopWithTransitionRun (count tDur : Nat) (probe : Option Nat)
    (output : String) : RunOutcome :=
  match probe with
  | none => ⟨[], []⟩
  | some l =>
    let length := u16 l
    let warn := if length < tDur
      then ["Transition duration must be less than video length"] else []
    ⟨[.filterGraph (filterComplexWithCrossFade count tDur length) output], warn⟩

/-- One iteration of the `Run` closure of `videoLoopCmd` for a single input
file `e` (with both flag lookups succeeding, as they do for the registered
flags, and the `count < 2` top-level abort already passed):

```go
shouldConcatCountTimes := length == 0 && errC == nil && count > 0
shouldConcatToAchieveLength := !shouldConcatCountTimes && errD == nil && length > 0
```

`lc` stands for the result of the `getRequiredLoopCount` call in the
target-duration branch; in the source that call does not even type-check
(`getRequiredLoopCount(e, length)` passes the file path and only two of three
arguments), so its result is kept abstract here — the branch structure does
not depend on it.  `absE` is `filepath.Abs(e)`. -/
def videoLoopRunFile (count length tDur : Nat) (crossFade isVideo : Bool)
    (lc : Except Unit Nat) (probe : Option Nat) (oPath e absE : String) :
    RunOutcome :=
  if isVideo then
    if length = 0 ∧ 0 < count then
      let out := getOutputFileName oPath e ("loop-" ++ toString count)
      if crossFade = false then
        ⟨[.concatList (concatListContent count absE) out], []⟩
      else
        createVideoLoopWithTransitionRun count tDur probe out
    else if ¬(length = 0 ∧ 0 < count) ∧ 0 < length then
      match lc with
      | .ok n =>
        let out := getOutputFileName oPath e ("length-" ++ toString length)
        if crossFade = false then
          ⟨[.concatList (concatListContent n absE) out], []⟩
        else ⟨[], []⟩
      | .error _ => ⟨[], []⟩
    else ⟨[], []⟩
  else ⟨[], []⟩

/-- File-system outcome of `createVideoLoopWithoutTransition` under the four
fallible steps it performs (temp-file creation, `WriteString`, `Close`,
`cmd.Run`).  The source registers `defer os.Remove(tmpFile.Name())` right
after creating the file, but handles the write/close failures with
`log.Fatal`, which prints and calls `os.Exit(1)` — and `os.Exit` terminates
the process without running deferred functions; an engine failure is only
printed, so the function returns normally and the deferred remove runs. -/
structure FsOutcome where
  tempCreated : Bool
  tempRemoved : Bool
  fatalExit : Bool
  engineInvoked : Bool
  engineFailed : Bool
deriving DecidableEq

/-- The temp-file lifecycle of `createVideoLoopWithoutTransition`, step by
step along the source's exit paths. -/
def createVideoLoopWithoutTransitionFs (tempOk writeOk closeOk engineOk : Bool) :
    FsOutcome :=
  if tempOk = false then ⟨false, false, true, false, false⟩
  else if writeOk = false then ⟨true, false, true, false, false⟩
  else if closeOk = false then ⟨true, false, true, false, false⟩
  else ⟨true, true, false, true, engineOk = false⟩

/-- Claim C3: the claim says the cross-fade path fails with a degenerate-clip
error before building any graph text and never invokes the engine when
`clipLengthSeconds ≤ transitionSeconds`.  What the code does at the claim's
concrete input `clipDuration = 5`, `transition = 5` (probe succeeds with 5,
`count = 2`): no message is printed (the only guard is `length < tDur`, and
even that one merely warns without returning), the full filter-graph text is
built, and the engine is invoked once with it. -/
theorem crossFade_degenerate_still_invokes_engine :
    createVideoLoopWithTransitionRun 2 5 (some 5) "out.mp4" =
      ⟨[.filterGraph (filterComplexWithCrossFade 2 5 5) "out.mp4"], []⟩ := rfl

/-- Claim C6: in fixed-count mode (`length = 0`) with cross-fade disabled, for
any `count ≥ 2` and regardless of clip duration (`probe`), transition duration
(`tDur`) or the target-duration computation (`lc`), the dispatch makes exactly
one engine call: output file `<stem>_loop-<count>.mp4` in the output
directory, with the list handed to the engine being the source file's
(absolute) path line repeated exactly `count` times. -/
theorem fixedCount_noFade_output_name_and_list
    (count tDur : Nat) (lc : Except Unit Nat) (probe : Option Nat)
    (oPath e absE : String) (h2 : 2 ≤ count) :
    videoLoopRunFile count 0 tDur false true lc probe oPath e absE =
      ⟨[.concatList (concatListContent count absE)
          (joinPath oPath (getFileNameWithoutExtension e ++
            ("_loop-" ++ (toString count ++ ".mp4"))))], []⟩
    ∧ concatListContent count absE =
        strJoin (List.replicate count (concatListLine absE)) := by
  have hc : (0 : Nat) < count := by omega
  constructor
  · have hname : getOutputFileName oPath e ("loop-" ++ toString count) =
        joinPath oPath (getFileNameWithoutExtension e ++
          ("_loop-" ++ (toString count ++ ".mp4"))) := by
      simp only [getOutputFileName, String.append_assoc]
      rfl
    simp [videoLoopRunFile, hc, hname]
  · exact strRepeat_eq_join _ _

/-- Witness for **C6** at the spec's concrete scenario 2: `count = 3`. -/
theorem fixedCount_noFade_output_name_and_list_witness :
    videoLoopRunFile 3 0 2 false true (.error ()) none "" "clip.mp4"
        "/videos/clip.mp4" =
      ⟨[.concatList (concatListContent 3 "/videos/clip.mp4")
          (joinPath "" (getFileNameWithoutExtension "clip.mp4" ++
            ("_loop-" ++ (toString 3 ++ ".mp4"))))], []⟩
    ∧ concatListContent 3 "/videos/clip.mp4" =
        strJoin (List.replicate 3 (concatListLine "/videos/clip.mp4")) :=
  fixedCount_noFade_output_name_and_list 3 2 (.error ()) none "" "clip.mp4"
    "/videos/clip.mp4" (by decide)

/-- Claim C7: the claim (and the command's own help text, "-c has precedence
over -l") says fixed-count mode wins when both a count `≥ 2` and a positive
length are supplied.  The code does the opposite: with `count = 3` and
`length = 10`, `shouldConcatCountTimes = (length == 0 && count > 0)` is
false, so the target-duration branch runs — the output is named
`clip_length-10.mp4`, not `clip_loop-3.mp4`, and the repeat count is the one
from the target-duration computation (abstracted here as 7), not 3. -/
theorem mode_precedence_length_wins :
    videoLoopRunFile 3 10 2 false true (.ok 7) none "" "clip.mp4"
        "/videos/clip.mp4" =
      ⟨[.concatList (concatListContent 7 "/videos/clip.mp4")
          "clip_length-10.mp4"], []⟩ := rfl

/-- Claim C8: the claim says the temp list file is removed on every exit path of
`createVideoLoopWithoutTransition`, including failures while writing or
closing it.  In the code the `defer os.Remove` only covers paths that return
normally (success and engine failure); a failed `WriteString` hits
`log.Fatal`, i.e. `os.Exit(1)`, which skips deferred functions — the temp
file is created but never removed. -/
theorem tempFile_survives_write_failure :
    createVideoLoopWithoutTransitionFs true false true true =
      ⟨true, false, true, false, false⟩ := rfl

/-- Claim C9: when target-duration mode is selected (`length > 0`, with
`count ≥ 2` so the top-level count guard has passed) and cross-fade is
enabled, the per-file dispatch invokes no engine, produces no output file,
and prints nothing to stderr — a silent no-op, whatever the loop-count
computation and the duration probe return. -/
theorem targetDuration_crossFade_silent_noop
    (count length tDur : Nat) (lc : Except Unit Nat) (probe : Option Nat)
    (oPath e absE : String) (h2 : 2 ≤ count) (hl : 0 < length) :
    videoLoopRunFile count length tDur true true lc probe oPath e absE =
      ⟨[], []⟩ := by
  have hne : ¬(length = 0 ∧ 0 < count) := by omega
  cases lc with
  | ok n => simp [videoLoopRunFile, hne, hl]
  | error u => simp [videoLoopRunFile, hne, hl]

/-- Witness for **C9**: `count = 3`, `length = 10`, cross-fade on. -/
theorem targetDuration_crossFade_silent_noop_witness :
    videoLoopRunFile 3 10 2 true true (.ok 5) (some 15) "" "clip.mp4"
        "/videos/clip.mp4" = ⟨[], []⟩ :=
  targetDuration_crossFade_silent_noop 3 10 2 (.ok 5) (some 15) "" "clip.mp4"
    "/videos/clip.mp4" (by decide) (by decide)
